import Mathlib

/-!
Shallow embedding of the hyprkool workspace-grid engine (src/main.rs).

Rust strings are modelled as lists of characters, so that starts_with
becomes List.isPrefixOf, strip_prefix becomes a guarded List.drop,
position becomes List.findIdx?, and format!("name:id") becomes list
append with Nat.toDigits.  Rust i64/isize arithmetic is carried out in
Int, with truncating division and remainder (Int.tdiv, Int.tmod)
matching Rust's / and % operators; the "as usize" casts become Int.toNat
at the points where the surrounding code guarantees non-negativity.
Compositor queries (the active workspace name, the cursor position) are
externalized as function arguments.
-/

/-- Rust String / str slices, modelled as lists of characters. -/
abbrev Str := List Char

/-- The composite workspace name built by format!("name:id") in State::new
(main.rs line 162). -/
def fmtWorkspace (name : Str) (id : Nat) : Str :=
  name ++ ':' :: Nat.toDigits 10 id

/-- The raw_workspaces array of State::new (main.rs line 151). -/
def rawWorkspaces : List Nat := [1, 2, 3, 4, 5, 6, 7, 8, 9]

/-- The 9 composite workspace names generated for one activity
(main.rs lines 159-163). -/
def wsNames (name : Str) : List Str :=
  rawWorkspaces.map fun id => fmtWorkspace name id

/-- The activity list after the empty-list default substitution in State::new
(main.rs lines 152-155): clone the configured list, push "default" if empty. -/
def cookActivities (activities0 : List Str) : List Str :=
  if activities0.isEmpty then activities0 ++ ["default".data] else activities0

/-- The State struct (main.rs lines 142-147); the config field is plumbing and
only its activity list matters for the grid, so it is dropped here. -/
structure State where
  activities : List Str
  workspaces : List (List Str)
deriving DecidableEq

/-- State::new (main.rs lines 150-172). -/
def State.new (activities0 : List Str) : State :=
  { activities := cookActivities activities0
    workspaces := (cookActivities activities0).map wsNames }

/-- State::get_activity_index (main.rs lines 174-178): index of the first
activity whose name is a prefix of the given name. -/
def State.get_activity_index (s : State) (name : Str) : Option Nat :=
  s.activities.findIdx? fun a => a.isPrefixOf name

/-- State::get_indices (main.rs lines 181-188).  The Rust code indexes
self.workspaces[activity_index]; the index comes from a position search over
self.activities, and both vectors have the same length, so List.getD is an
exact model of the (in-bounds) indexing. -/
def State.get_indices (s : State) (name : Str) : Option (Nat × Option Nat) :=
  match s.get_activity_index name with
  | none => none
  | some activity_index =>
    some (activity_index,
      (s.workspaces.getD activity_index []).findIdx? fun w => w == name)

/-- The grid arithmetic of State::moved_workspace (main.rs lines 195-207):
from a workspace index, compute the pair (ix, iy) after applying the deltas,
wrapping (cycle) or clamping (no cycle).  Int.tmod / Int.tdiv are Rust's
truncating % and /. -/
def gridMove (workspace_index : Nat) (x y : Int) (cycle : Bool) : Int × Int :=
  let iy : Int := (workspace_index : Int).tdiv 3
  let ix : Int := (workspace_index : Int).tmod 3
  if cycle then
    ((ix + x + 3).tmod 3, (iy + y + 3).tmod 3)
  else
    (min (max (ix + x) 0) 2, min (max (iy + y) 0) 2)

/-- The final index iy as usize * 3 + ix as usize (main.rs line 208); toNat
models the casts, which only ever see non-negative values (claim C9). -/
def gridMoveIndex (workspace_index : Nat) (x y : Int) (cycle : Bool) : Nat :=
  (gridMove workspace_index x y cycle).2.toNat * 3 +
    (gridMove workspace_index x y cycle).1.toNat

/-- State::moved_workspace (main.rs lines 190-209), with the compositor's
active-workspace query externalized as the currentName argument.  Returns
none exactly where the Rust code returns the "not in a valid activity
workspace" error. -/
def State.moved_workspace (s : State) (currentName : Str) (x y : Int)
    (cycle : Bool) : Option Str :=
  match s.get_indices currentName with
  | some (activity_index, some workspace_index) =>
    some ((s.workspaces.getD activity_index []).getD
      (gridMoveIndex workspace_index x y cycle) [])
  | _ => none

/-- Cursor position as reported by the compositor (i64 pixel coordinates). -/
structure CursorPos where
  x : Int
  y : Int
deriving DecidableEq

/-- The edge-detection step of one Command::MouseLoop tick (main.rs lines
352-367): width and height are the monitor dimensions, w is edge_width, m is
edge_margin.  Returns the accumulated grid deltas (x, y) together with the
repositioned cursor. -/
def mouseTick (width height w m : Int) (c : CursorPos) :
    (Int × Int) × CursorPos :=
  let xcx : Int × Int :=
    if c.x ≤ w then (3 - 1, width - m)
    else if c.x ≥ width - 1 - w then (1, 2)
    else (0, c.x)
  let ycy : Int × Int :=
    if c.y ≤ w then (3 - 1, height - m)
    else if c.y ≥ height - 1 - w then (1, 2)
    else (0, c.y)
  ((xcx.1, ycy.1), { x := xcx.2, y := ycy.2 })

/-- The new_activity_index computation of Command::NextActivity (main.rs
lines 438-450). -/
def State.nextActivityIndex (s : State) (currentName : Str) (cycle : Bool) :
    Nat :=
  match s.get_activity_index currentName with
  | some i =>
    if cycle then (i + 1) % s.activities.length
    else min i (s.activities.length - 1)
  | none => 0

/-- The new_activity_index computation of Command::PrevActivity (main.rs
lines 463-475); the isize arithmetic is carried out in Int. -/
def State.prevActivityIndex (s : State) (currentName : Str) (cycle : Bool) :
    Nat :=
  match s.get_activity_index currentName with
  | some i =>
    if cycle then
      (((i : Int) + (s.activities.length : Int) - 1).tmod
        (s.activities.length : Int)).toNat
    else (max (i : Int) 0).toNat
  | none => 0

/-- The target workspace name of Command::NextActivity (main.rs lines
436-459): reuse the stripped suffix of the current name against the new
activity name when the current activity resolves, else fall back to the
first workspace of the new activity. -/
def State.nextActivityName (s : State) (currentName : Str) (cycle : Bool) :
    Str :=
  let new_activity_index := s.nextActivityIndex currentName cycle
  let id := (s.get_activity_index currentName).bind fun i =>
    let a := s.activities.getD i []
    if a.isPrefixOf currentName then some (currentName.drop a.length) else none
  match id with
  | some id => s.activities.getD new_activity_index [] ++ id
  | none => (s.workspaces.getD new_activity_index []).getD 0 []

/-- The target workspace name of Command::PrevActivity (main.rs lines
461-485). -/
def State.prevActivityName (s : State) (currentName : Str) (cycle : Bool) :
    Str :=
  let new_activity_index := s.prevActivityIndex currentName cycle
  let id := (s.get_activity_index currentName).bind fun i =>
    let a := s.activities.getD i []
    if a.isPrefixOf currentName then some (currentName.drop a.length) else none
  match id with
  | some id => s.activities.getD new_activity_index [] ++ id
  | none => (s.workspaces.getD new_activity_index []).getD 0 []

/-- The target workspace name of Command::SwitchToActivity (main.rs lines
418-434): when the current workspace resolves to an activity, the prefix
test of get_activity_index guarantees the strip succeeds, and the stripped
remainder is the drop of the activity name's length; otherwise the
character 0 is pushed onto the requested name. -/
def State.switchToActivityTarget (s : State) (requested currentName : Str) :
    Str :=
  match s.get_activity_index currentName with
  | some i => requested ++ currentName.drop (s.activities.getD i []).length
  | none => requested ++ ['0']

/-! ### Helper lemmas -/

theorem wsNames_length (a : Str) : (wsNames a).length = 9 := rfl

theorem wsNames_getD (a : Str) (i : Nat) (h : i < 9) :
    (wsNames a).getD i [] = fmtWorkspace a (i + 1) := by
  interval_cases i <;> rfl

theorem wsNames_getElem (a : Str) (i : Nat) (h : i < (wsNames a).length) :
    (wsNames a)[i] = fmtWorkspace a (i + 1) := by
  have h9 : i < 9 := by simpa [wsNames_length] using h
  rw [← List.getD_eq_getElem (wsNames a) [] h]
  exact wsNames_getD a i h9

theorem state_new_activities (acts : List Str) :
    (State.new acts).activities = cookActivities acts := rfl

theorem state_new_workspaces (acts : List Str) :
    (State.new acts).workspaces = (cookActivities acts).map wsNames := rfl

theorem state_new_workspaces_getD (acts : List Str) (a : Nat)
    (ha : a < (State.new acts).activities.length) :
    (State.new acts).workspaces.getD a [] =
      wsNames ((State.new acts).activities.getD a []) := by
  have ha1 : a < (cookActivities acts).length := ha
  have ha2 : a < ((cookActivities acts).map wsNames).length := by
    simpa [List.length_map] using ha1
  rw [state_new_workspaces, state_new_activities,
    List.getD_eq_getElem _ [] ha2, List.getD_eq_getElem _ [] ha1,
    List.getElem_map]

/-- findIdx? returns the first index where the predicate holds. -/
theorem findIdx?_eq_some_of_first {α : Type} (p : α → Bool) (xs : List α)
    (i : Nat) (hi : i < xs.length) (hp : p (xs[i]) = true)
    (hprev : ∀ j, j < i → ∀ (hj : j < xs.length), p (xs[j]) = false) :
    xs.findIdx? p = some i := by
  apply List.findIdx?_eq_some_iff_getElem.mpr
  refine ⟨hi, hp, fun j hji => ?_⟩
  simp [hprev j hji (Nat.lt_trans hji hi)]

theorem toDigits_lt10_inj : ∀ j, j < 10 → ∀ m, m < 10 →
    Nat.toDigits 10 j = Nat.toDigits 10 m → j = m := by decide

theorem fmtWorkspace_inj (a : Str) (k m : Nat) (hk : k < 10) (hm : m < 10)
    (h : fmtWorkspace a k = fmtWorkspace a m) : k = m := by
  unfold fmtWorkspace at h
  have h1 := List.append_cancel_left h
  injection h1 with _ h2
  exact toDigits_lt10_inj k hk m hm h2

theorem gridMoveIndex_lt9 (wi : Nat) (x y : Int) (cycle : Bool) (hw : wi < 9)
    (hx : x = -1 ∨ x = 0 ∨ x = 1) (hy : y = -1 ∨ y = 0 ∨ y = 1) :
    gridMoveIndex wi x y cycle < 9 := by
  rcases hx with rfl | rfl | rfl <;> rcases hy with rfl | rfl | rfl <;>
    cases cycle <;> (interval_cases wi <;> decide)

/-! ### Claims -/

/-- C1 (code_bug evaluation): with activities [work, home] and current
workspace work:5 resolving to activity index 0, NextActivity with
cycle=false yields index 0 — the code never advances (it computes
min i (count-1) without the +1), while the claim requires
min(0+1, 1) = 1; symmetrically PrevActivity with cycle=false from home:5
(index 1) yields 1 instead of max(1-1, 0) = 0.  The cycle=true cases do
wrap as the claim states. -/
theorem c1_next_prev_noncycle_eval :
    (State.new ["work".data, "home".data]).nextActivityIndex
        "work:5".data false = 0 ∧
    (State.new ["work".data, "home".data]).prevActivityIndex
        "home:5".data false = 1 ∧
    (State.new ["work".data, "home".data]).nextActivityIndex
        "work:5".data true = 1 ∧
    (State.new ["work".data, "home".data]).prevActivityIndex
        "home:5".data true = 0 := by
  decide

/-- C3 (code_bug evaluation): with monitor 1920x1080, edge_width 5 and
edge_margin 7, a left-edge tick (x = 2) repositions x to
1920 - 7 = 1913 as claimed, but a right-edge tick (x = 1918) repositions
x to the literal 2, not to edge_margin = 7 as claimed; likewise a
bottom-edge tick (y = 1078) repositions y to 2, not 7. -/
theorem c3_mouse_reposition_eval :
    (mouseTick 1920 1080 5 7 { x := 2, y := 500 }).2 =
      { x := 1913, y := 500 } ∧
    (mouseTick 1920 1080 5 7 { x := 1918, y := 500 }).2 =
      { x := 2, y := 500 } ∧
    (mouseTick 1920 1080 5 7 { x := 500, y := 1078 }).2 =
      { x := 500, y := 2 } := by
  decide

/-- C4: for every workspace index in [0,8] and deltas dx, dy in
the range -1..1, the cyclic grid move applied with (dx, dy) and then with
(-dx, -dy) returns the original index. -/
theorem c4_cycle_roundtrip (wi : Nat) (x y : Int) (hw : wi < 9)
    (hx : x = -1 ∨ x = 0 ∨ x = 1) (hy : y = -1 ∨ y = 0 ∨ y = 1) :
    gridMoveIndex (gridMoveIndex wi x y true) (-x) (-y) true = wi := by
  rcases hx with rfl | rfl | rfl <;> rcases hy with rfl | rfl | rfl <;>
    (interval_cases wi <;> decide)

theorem c4_cycle_roundtrip_witness :
    (4 : Nat) < 9 ∧
    gridMoveIndex (gridMoveIndex 4 1 (-1) true) (-1) (-(-1)) true = 4 :=
  ⟨by decide, c4_cycle_roundtrip 4 1 (-1) (by decide) (by decide) (by decide)⟩

/-- C6: the non-cycling grid move clamps each axis independently to [0,2]
after applying the deltas; in particular a move off any boundary of either
axis keeps that coordinate at the boundary (column 0 with dx = -1 stays at
column 0, column 2 with dx = 1 stays at column 2, and the same for rows). -/
theorem c6_clamp_boundaries (wi : Nat) (x y : Int) (hw : wi < 9)
    (hx : x = -1 ∨ x = 0 ∨ x = 1) (hy : y = -1 ∨ y = 0 ∨ y = 1) :
    (gridMove wi x y false).1 =
      min (max ((wi : Int).tmod 3 + x) 0) 2 ∧
    (gridMove wi x y false).2 =
      min (max ((wi : Int).tdiv 3 + y) 0) 2 ∧
    (wi % 3 = 0 → x = -1 → gridMoveIndex wi x y false % 3 = 0) ∧
    (wi % 3 = 2 → x = 1 → gridMoveIndex wi x y false % 3 = 2) ∧
    (wi / 3 = 0 → y = -1 → gridMoveIndex wi x y false / 3 = 0) ∧
    (wi / 3 = 2 → y = 1 → gridMoveIndex wi x y false / 3 = 2) := by
  rcases hx with rfl | rfl | rfl <;> rcases hy with rfl | rfl | rfl <;>
    (interval_cases wi <;> exact ⟨rfl, rfl, by decide, by decide, by decide,
      by decide⟩)

theorem c6_clamp_boundaries_witness :
    (3 : Nat) < 9 ∧ gridMoveIndex 3 (-1) 0 false % 3 = 0 :=
  ⟨by decide,
    (c6_clamp_boundaries 3 (-1) 0 (by decide) (by decide)
      (by decide)).2.2.1 (by decide) (by decide)⟩

/-- C9: for every workspace index in [0,8], deltas in -1..1 and either
policy, the intermediate coordinates ix and iy stay in [0,2], so the
i64-to-usize casts never see a negative value and the final index
iy * 3 + ix stays within the 9-element workspace vector. -/
theorem c9_grid_arith_in_bounds (wi : Nat) (x y : Int) (cycle : Bool)
    (hw : wi < 9) (hx : x = -1 ∨ x = 0 ∨ x = 1)
    (hy : y = -1 ∨ y = 0 ∨ y = 1) :
    0 ≤ (gridMove wi x y cycle).1 ∧ (gridMove wi x y cycle).1 ≤ 2 ∧
    0 ≤ (gridMove wi x y cycle).2 ∧ (gridMove wi x y cycle).2 ≤ 2 ∧
    gridMoveIndex wi x y cycle < 9 := by
  rcases hx with rfl | rfl | rfl <;> rcases hy with rfl | rfl | rfl <;>
    cases cycle <;> (interval_cases wi <;> decide)

theorem c9_grid_arith_in_bounds_witness :
    (0 : Nat) < 9 ∧
    (0 ≤ (gridMove 0 (-1) (-1) false).1 ∧
      (gridMove 0 (-1) (-1) false).1 ≤ 2 ∧
      0 ≤ (gridMove 0 (-1) (-1) false).2 ∧
      (gridMove 0 (-1) (-1) false).2 ≤ 2 ∧
      gridMoveIndex 0 (-1) (-1) false < 9) :=
  ⟨by decide,
    c9_grid_arith_in_bounds 0 (-1) (-1) false (by decide) (by decide)
      (by decide)⟩

/-- C5: State::new substitutes a single default activity for an empty
configured list, builds one row of workspace names per activity in order,
and each row has exactly 9 names whose entry at local index i is the
composite name of the activity name with i+1. -/
theorem c5_state_new_grid (acts : List Str) :
    (acts = [] → (State.new acts).activities = ["default".data]) ∧
    (acts ≠ [] → (State.new acts).activities = acts) ∧
    (State.new acts).activities ≠ [] ∧
    (State.new acts).workspaces.length = (State.new acts).activities.length ∧
    ∀ a, a < (State.new acts).activities.length →
      ((State.new acts).workspaces.getD a []).length = 9 ∧
      ∀ i, i < 9 →
        ((State.new acts).workspaces.getD a []).getD i [] =
          fmtWorkspace ((State.new acts).activities.getD a []) (i + 1) := by
  refine ⟨?_, ?_, ?_, ?_, ?_⟩
  · intro h
    subst h
    rfl
  · intro h
    rw [state_new_activities, cookActivities, if_neg]
    simpa [List.isEmpty_iff] using h
  · rcases acts with _ | ⟨a, rest⟩
    · decide
    · rw [state_new_activities, cookActivities]
      simp
  · rw [state_new_activities, state_new_workspaces, List.length_map]
  · intro a ha
    rw [state_new_workspaces_getD acts a ha]
    exact ⟨wsNames_length _, fun i hi => wsNames_getD _ i hi⟩

theorem c5_state_new_grid_witness :
    (0 : Nat) < (State.new ["work".data]).activities.length ∧ (4 : Nat) < 9 ∧
    ((State.new ["work".data]).workspaces.getD 0 []).getD 4 [] =
      fmtWorkspace ((State.new ["work".data]).activities.getD 0 []) 5 :=
  ⟨by decide, by decide,
    ((c5_state_new_grid ["work".data]).2.2.2.2 0 (by decide)).2 4 (by decide)⟩

/-- C2 counterexample: with activities [w, work], the composite name
workspaces[1][0] (that is, work:1) resolves through the first prefix
match to activity 0 with no exact workspace hit, not to (1, some 0) as
the claim requires for every activity index in range. -/
theorem c2_roundtrip_counterexample :
    (State.new ["w".data, "work".data]).get_indices
        (((State.new ["w".data, "work".data]).workspaces.getD 1 []).getD 0 [])
      ≠ some (1, some 0) ∧
    (State.new ["w".data, "work".data]).get_indices
        (((State.new ["w".data, "work".data]).workspaces.getD 1 []).getD 0 [])
      = some (0, none) := by
  exact ⟨by decide, by decide⟩

/-- C2 (amended): provided no earlier activity name is a prefix of the
composite name workspaces[ai][l], get_indices on that composite name
returns exactly some (ai, some l).  The proviso is forced by the
counterexample: get_activity_index takes the first prefix match in
sequence order, so an earlier activity whose name is a prefix of the
composite name captures the resolution. -/
theorem c2_roundtrip_amended (acts : List Str) (ai l : Nat)
    (hai : ai < (State.new acts).activities.length) (hl : l < 9)
    (hpre : ∀ j, j < ai →
      (((State.new acts).activities.getD j []).isPrefixOf
        (fmtWorkspace ((State.new acts).activities.getD ai []) (l + 1)))
        = false) :
    (State.new acts).get_indices
        (fmtWorkspace ((State.new acts).activities.getD ai []) (l + 1)) =
      some (ai, some l) := by
  have hact : (State.new acts).get_activity_index
      (fmtWorkspace ((State.new acts).activities.getD ai []) (l + 1)) =
        some ai := by
    unfold State.get_activity_index
    apply findIdx?_eq_some_of_first _ _ ai hai
    · rw [← List.getD_eq_getElem (State.new acts).activities [] hai]
      unfold fmtWorkspace
      simp [List.isPrefixOf_iff_prefix]
    · intro j hj hjlen
      rw [← List.getD_eq_getElem (State.new acts).activities [] hjlen]
      exact hpre j hj
  have hws : (State.new acts).workspaces.getD ai [] =
      wsNames ((State.new acts).activities.getD ai []) :=
    state_new_workspaces_getD acts ai hai
  have hfind : (wsNames ((State.new acts).activities.getD ai [])).findIdx?
      (fun w => w ==
        fmtWorkspace ((State.new acts).activities.getD ai []) (l + 1)) =
      some l := by
    apply findIdx?_eq_some_of_first _ _ l (by rw [wsNames_length]; exact hl)
    · rw [wsNames_getElem _ l (by rw [wsNames_length]; exact hl)]
      simp
    · intro j hj hjlen
      rw [wsNames_getElem _ j hjlen]
      apply beq_eq_false_iff_ne.mpr
      intro heq
      have hj9 : j < 9 := by simpa [wsNames_length] using hjlen
      have := fmtWorkspace_inj _ (j + 1) (l + 1) (by omega) (by omega) heq
      omega
  have hred : (State.new acts).get_indices
      (fmtWorkspace ((State.new acts).activities.getD ai []) (l + 1)) =
        some (ai, ((State.new acts).workspaces.getD ai []).findIdx?
          fun w => w ==
            fmtWorkspace ((State.new acts).activities.getD ai []) (l + 1)) := by
    unfold State.get_indices
    rw [hact]
  rw [hred, hws, hfind]

theorem c2_roundtrip_amended_witness :
    ((1 : Nat) < (State.new ["work".data, "home".data]).activities.length ∧
      (4 : Nat) < 9) ∧
    (State.new ["work".data, "home".data]).get_indices
        (fmtWorkspace
          ((State.new ["work".data, "home".data]).activities.getD 1 []) 5) =
      some (1, some 4) :=
  ⟨⟨by decide, by decide⟩,
    c2_roundtrip_amended ["work".data, "home".data] 1 4 (by decide) (by decide)
      (by decide)⟩

/-- C7 counterexample: with activities [work, home] and current workspace
name exactly work, stripping the recognized activity prefix leaves no
residual suffix, yet NextActivity with cycle=true targets the bare name
home rather than the first workspace of the destination grid
(workspaces[1][0], that is home:1) as the claim requires. -/
theorem c7_activity_suffix_counterexample :
    (State.new ["work".data, "home".data]).nextActivityName
        "work".data true = "home".data ∧
    "home".data ≠
      ((State.new ["work".data, "home".data]).workspaces.getD 1 []).getD 0 []
    := by
  exact ⟨by decide, by decide⟩

/-- C7 (amended): when the current workspace name resolves to an activity,
the stripped suffix (possibly empty) is appended verbatim to the
destination activity name — an exactly-matching name with empty suffix
therefore yields the bare destination activity name; only when no
activity prefix is recognized does the command fall back to the first
workspace of the destination (index 0) grid.  The worked examples of the
claim hold: NextActivity with cycle=true goes from work:5 to home:5 and
wraps from home:5 back to work:5. -/
theorem c7_activity_suffix_amended (s : State) (cur : Str) (cycle : Bool) :
    (∀ i, s.get_activity_index cur = some i →
      s.nextActivityName cur cycle =
        s.activities.getD (s.nextActivityIndex cur cycle) [] ++
          cur.drop (s.activities.getD i []).length ∧
      s.prevActivityName cur cycle =
        s.activities.getD (s.prevActivityIndex cur cycle) [] ++
          cur.drop (s.activities.getD i []).length) ∧
    (s.get_activity_index cur = none →
      s.nextActivityName cur cycle = (s.workspaces.getD 0 []).getD 0 [] ∧
      s.prevActivityName cur cycle = (s.workspaces.getD 0 []).getD 0 []) ∧
    (State.new ["work".data, "home".data]).nextActivityName
        "work:5".data true = "home:5".data ∧
    (State.new ["work".data, "home".data]).nextActivityName
        "home:5".data true = "work:5".data := by
  refine ⟨?_, ?_, by decide, by decide⟩
  · intro i h
    obtain ⟨hlen, hp, -⟩ := List.findIdx?_eq_some_iff_getElem.mp h
    have hp2 : (s.activities.getD i []).isPrefixOf cur = true := by
      rw [List.getD_eq_getElem s.activities [] hlen]
      exact hp
    constructor
    · unfold State.nextActivityName
      rw [h]
      simp only [Option.some_bind, hp2, if_true]
    · unfold State.prevActivityName
      rw [h]
      simp only [Option.some_bind, hp2, if_true]
  · intro h
    have hn : s.nextActivityIndex cur cycle = 0 := by
      unfold State.nextActivityIndex
      rw [h]
    have hpv : s.prevActivityIndex cur cycle = 0 := by
      unfold State.prevActivityIndex
      rw [h]
    constructor
    · unfold State.nextActivityName
      rw [h, hn]
      rfl
    · unfold State.prevActivityName
      rw [h, hpv]
      rfl

theorem c7_activity_suffix_amended_witness :
    (State.new ["work".data, "home".data]).get_activity_index
        "work:5".data = some 0 ∧
    (State.new ["work".data, "home".data]).nextActivityName
        "work:5".data true =
      (State.new ["work".data, "home".data]).activities.getD
          ((State.new ["work".data, "home".data]).nextActivityIndex
            "work:5".data true) [] ++
        "work:5".data.drop
          ((State.new ["work".data, "home".data]).activities.getD 0 []).length
    :=
  ⟨by decide,
    ((c7_activity_suffix_amended (State.new ["work".data, "home".data])
      "work:5".data true).1 0 (by decide)).1⟩

/-- C8: moved_workspace fails exactly when the current workspace name does
not resolve to a pair of activity index and exact workspace index — for
every delta and policy, so the check is independent of (and prior to) the
grid arithmetic — and on success (with the caller-supplied unit deltas)
the returned name is a member of the same activity's workspace row. -/
theorem c8_moved_workspace_error_iff (acts : List Str) (cur : Str)
    (x y : Int) (cycle : Bool) :
    ((State.new acts).moved_workspace cur x y cycle = none ↔
      ∀ ai wi, (State.new acts).get_indices cur ≠ some (ai, some wi)) ∧
    ((x = -1 ∨ x = 0 ∨ x = 1) → (y = -1 ∨ y = 0 ∨ y = 1) →
      ∀ ai wi, (State.new acts).get_indices cur = some (ai, some wi) →
        ∃ r, (State.new acts).moved_workspace cur x y cycle = some r ∧
          r ∈ (State.new acts).workspaces.getD ai []) := by
  constructor
  · rcases hgi : (State.new acts).get_indices cur with - | ⟨ai0, - | wi0⟩
    · simp [State.moved_workspace, hgi]
    · simp [State.moved_workspace, hgi]
    · constructor
      · intro hfalse
        rw [State.moved_workspace, hgi] at hfalse
        exact Option.noConfusion hfalse
      · intro hall
        exact absurd rfl (hall ai0 wi0)
  · intro hx hy ai wi hsome
    rcases hk : (State.new acts).get_activity_index cur with - | k
    · rw [State.get_indices, hk] at hsome
      exact Option.noConfusion hsome
    · rw [State.get_indices, hk] at hsome
      injection hsome with hpair
      injection hpair with hk2 hw2
      rw [hk2] at hk hw2
      obtain ⟨hailen, -, -⟩ := List.findIdx?_eq_some_iff_getElem.mp hk
      have hws : (State.new acts).workspaces.getD ai [] =
          wsNames ((State.new acts).activities.getD ai []) :=
        state_new_workspaces_getD acts ai hailen
      have hwi9 : wi < 9 := by
        obtain ⟨hwl, -, -⟩ := List.findIdx?_eq_some_iff_getElem.mp hw2
        rw [hws, wsNames_length] at hwl
        exact hwl
      have hidx : gridMoveIndex wi x y cycle < 9 :=
        gridMoveIndex_lt9 wi x y cycle hwi9 hx hy
      have hidx2 : gridMoveIndex wi x y cycle <
          ((State.new acts).workspaces.getD ai []).length := by
        rw [hws, wsNames_length]
        exact hidx
      refine ⟨((State.new acts).workspaces.getD ai []).getD
        (gridMoveIndex wi x y cycle) [], ?_, ?_⟩
      · simp only [State.moved_workspace, State.get_indices, hk, hw2]
      · rw [List.getD_eq_getElem _ [] hidx2]
        exact List.getElem_mem hidx2

theorem c8_moved_workspace_error_iff_witness :
    (((-1 : Int) = -1 ∨ (-1 : Int) = 0 ∨ (-1 : Int) = 1) ∧
      ((0 : Int) = -1 ∨ (0 : Int) = 0 ∨ (0 : Int) = 1) ∧
      (State.new ["work".data]).get_indices "work:5".data =
        some (0, some 4)) ∧
    ∃ r, (State.new ["work".data]).moved_workspace "work:5".data (-1) 0 false
        = some r ∧
      r ∈ (State.new ["work".data]).workspaces.getD 0 [] :=
  ⟨⟨by decide, by decide, by decide⟩,
    (c8_moved_workspace_error_iff ["work".data] "work:5".data (-1) 0
      false).2 (by decide) (by decide) 0 4 (by decide)⟩

theorem rawDigits_facts : ∀ id ∈ rawWorkspaces,
    (':' :: Nat.toDigits 10 id).getLast? = some (Nat.digitChar id) ∧
    Nat.digitChar id ≠ '0' := by decide

/-- C10: when the current workspace name matches no configured activity,
SwitchToActivity targets the requested activity name with the single
character 0 appended, and that name never equals any generated grid
workspace name, since every generated name ends in a digit 1 to 9. -/
theorem c10_switch_unknown_activity (acts : List Str) (requested cur : Str)
    (h : (State.new acts).get_activity_index cur = none) :
    (State.new acts).switchToActivityTarget requested cur =
      requested ++ ['0'] ∧
    ∀ row ∈ (State.new acts).workspaces, ∀ w ∈ row,
      requested ++ ['0'] ≠ w := by
  constructor
  · rw [State.switchToActivityTarget, h]
  · intro row hrow w hw heq
    rw [state_new_workspaces] at hrow
    obtain ⟨a, -, rfl⟩ := List.mem_map.mp hrow
    unfold wsNames at hw
    obtain ⟨id, hid, rfl⟩ := List.mem_map.mp hw
    have h1 : (requested ++ ['0']).getLast? = some '0' :=
      List.getLast?_concat _
    have h4 : (fmtWorkspace a id).getLast? = some (Nat.digitChar id) := by
      unfold fmtWorkspace
      rw [List.getLast?_append, (rawDigits_facts id hid).1]
      rfl
    rw [heq, h4] at h1
    injection h1 with h5
    exact (rawDigits_facts id hid).2 h5

theorem c10_switch_unknown_activity_witness :
    (State.new ["work".data]).get_activity_index "xyz".data = none ∧
    (State.new ["work".data]).switchToActivityTarget "home".data "xyz".data =
      "home".data ++ ['0'] :=
  ⟨by decide,
    (c10_switch_unknown_activity ["work".data] "home".data "xyz".data
      (by decide)).1⟩
